import Mathlib

/-!
Verification development for the openGauss exporter's query-to-metric
mapping engine.  The definitions below are a shallow embedding of the Go
sources: `collector/utils/utils.go` (type coercion, charset mapping,
panic recovery) and the collector file holding `getMetric`, `procRows`,
`newMetric` and `decode`.  Go strings are modelled as byte lists so that
UTF-8 well-formedness is expressible; `float64` values are modelled
symbolically (one constructor per way the code can produce a float),
since no claim depends on floating-point arithmetic or bit patterns.
-/

namespace OgExporter

/-- A Go string / byte slice: a list of byte values.  Go strings are raw
byte sequences that need not be valid UTF-8, which matters for `decode`. -/
abbrev GoStr : Type := List Nat

/-- UTF-8 encoding of one code point (standard RFC 3629 scheme), used to
turn Lean string literals into the byte strings of the model. -/
def utf8EncodeChar (c : Nat) : List Nat :=
  if c < 0x80 then [c]
  else if c < 0x800 then [0xC0 + c / 64, 0x80 + c % 64]
  else if c < 0x10000 then [0xE0 + c / 4096, 0x80 + (c / 64) % 64, 0x80 + c % 64]
  else [0xF0 + c / 262144, 0x80 + (c / 4096) % 64, 0x80 + (c / 64) % 64, 0x80 + c % 64]

/-- The UTF-8 bytes of a Lean string literal, as a model Go string. -/
def gs (s : String) : GoStr :=
  s.data.foldr (fun c acc => utf8EncodeChar c.toNat ++ acc) []

/-- Byte-range test `lo ≤ b ≤ hi` used by the UTF-8 validator. -/
def byteIn (lo hi b : Nat) : Bool := decide (lo ≤ b) && decide (b ≤ hi)

/-- Lower bound for the second byte of a three-byte sequence
(Go `utf8` accept-ranges table). -/
def lo2 (b : Nat) : Nat := if b = 0xE0 then 0xA0 else 0x80

/-- Upper bound for the second byte of a three-byte sequence. -/
def hi2 (b : Nat) : Nat := if b = 0xED then 0x9F else 0xBF

/-- Lower bound for the second byte of a four-byte sequence. -/
def lo3 (b : Nat) : Nat := if b = 0xF0 then 0x90 else 0x80

/-- Upper bound for the second byte of a four-byte sequence. -/
def hi3 (b : Nat) : Nat := if b = 0xF4 then 0x8F else 0xBF

/-- Embedding of Go `utf8.ValidString` on the byte representation:
RFC 3629 validity, rejecting surrogates, overlong forms and
code points above U+10FFFF, exactly as Go's accept-ranges table does. -/
def validUTF8 : List Nat → Bool
  | [] => true
  | b :: rest =>
    if b ≤ 0x7F then validUTF8 rest
    else if byteIn 0xC2 0xDF b then
      match rest with
      | c :: r => byteIn 0x80 0xBF c && validUTF8 r
      | [] => false
    else if byteIn 0xE0 0xEF b then
      match rest with
      | c1 :: c2 :: r => byteIn (lo2 b) (hi2 b) c1 && byteIn 0x80 0xBF c2 && validUTF8 r
      | _ => false
    else if byteIn 0xF0 0xF4 b then
      match rest with
      | c1 :: c2 :: c3 :: r =>
        byteIn (lo3 b) (hi3 b) c1 && byteIn 0x80 0xBF c2 && byteIn 0x80 0xBF c3 && validUTF8 r
      | _ => false
    else false

/-- Symbolic model of a Go `float64` value.  Each constructor records how
the program produced the value; no claim depends on float arithmetic, so
bit-level behaviour is not modelled.  `ofInt i` is the float64 conversion
of the integer `i` (Go `float64(v)`); the literals `1.0` and `0.0` are
`ofInt 1` and `ofInt 0`.  `nan` is `math.NaN()`.  `parsed s` is the value
returned by a successful `strconv.ParseFloat(s, 64)`. -/
inductive GoFloat : Type
  | ofInt (i : Int)
  | nan
  | parsed (s : GoStr)
deriving DecidableEq

/-- Model of a Go `time.Time` value.  `unix` is `Unix()` (seconds),
`nanosecond` is `Nanosecond()` (0 ≤ _ < 10^9 for real times), and
`rfc3339nano` carries the library's `Format(time.RFC3339Nano)` rendering,
which depends on wall-clock and timezone data not otherwise modelled. -/
structure GTime : Type where
  unix : Int
  nanosecond : Nat
  rfc3339nano : GoStr
deriving DecidableEq

/-- A dynamically-typed database column value (a Go interface value scanned from a row),
one constructor per case of the type switches in `DbToFloat64` /
`DbToString`; `other` stands for any dynamic type not listed. -/
inductive DbValue : Type
  | int (i : Int)
  | float (f : GoFloat)
  | time (t : GTime)
  | bytes (b : GoStr)
  | str (s : GoStr)
  | bool (b : Bool)
  | null
  | other
deriving DecidableEq

/-- ASCII lower-casing of a byte (A–Z ↦ a–z), for case-insensitive
matching of `inf` / `nan` in the float grammar. -/
def byteLower (b : Nat) : Nat := if 65 ≤ b ∧ b ≤ 90 then b + 32 else b

/-- Is the byte an ASCII digit? -/
def isDigitByte (b : Nat) : Bool := decide (48 ≤ b) && decide (b ≤ 57)

/-- Drop one leading ASCII sign (`+` or `-`) if present. -/
def stripSign : List Nat → List Nat
  | [] => []
  | b :: rest => if b = 43 ∨ b = 45 then rest else b :: rest

/-- Split a byte string at the first `e` or `E`, returning what precedes
it and, when present, what follows. -/
def splitExp : List Nat → List Nat × Option (List Nat)
  | [] => ([], none)
  | b :: rest =>
    if b = 101 ∨ b = 69 then ([], some rest)
    else
      let (m, e) := splitExp rest
      (b :: m, e)

/-- A valid decimal mantissa: only digits and at most one `.`, with at
least one digit. -/
def validMantissa (bs : List Nat) : Bool :=
  bs.all (fun b => isDigitByte b || decide (b = 46)) &&
    decide ((bs.filter (fun b => decide (b = 46))).length ≤ 1) &&
    bs.any isDigitByte

/-- A valid exponent part: optional sign then at least one digit. -/
def validExpPart (bs : List Nat) : Bool :=
  let d := stripSign bs
  decide (d ≠ []) && d.all isDigitByte

/-- Does the byte string match `strconv.ParseFloat`'s base-10 grammar
(optional sign, decimal mantissa, optional `e`/`E` exponent) or one of the
case-insensitive specials `inf`/`infinity`/`nan`?  This models the
external `strconv` library at the granularity the claims use; hexadecimal
float syntax, digit-separating underscores and range overflow to ±Inf are
not modelled. -/
def goFloatSyntaxOk (bs : List Nat) : Bool :=
  let body := stripSign bs
  let lower := body.map byteLower
  if lower = gs "inf" ∨ lower = gs "infinity" ∨ lower = gs "nan" then true
  else
    let (m, e) := splitExp body
    validMantissa m &&
      (match e with
       | none => true
       | some ex => validExpPart ex)

/-- Model of `strconv.ParseFloat(s, 64)`: a symbolic parsed value on
syntactic success, `none` on failure (Go: a non-nil error). -/
def goParseFloat (s : GoStr) : Option GoFloat :=
  if goFloatSyntaxOk s then some (.parsed s) else none

/-- Embedding of `utils.DbToFloat64` (utils.go): the type switch
converting a database value to `(float64, bool)`. -/
def DbToFloat64 : DbValue → GoFloat × Bool
  | .int i => (.ofInt i, true)
  | .float f => (f, true)
  | .time t => (.ofInt t.unix, true)
  | .bytes b =>
    match goParseFloat b with
    | some f => (f, true)
    | none => (.nan, false)
  | .str s =>
    match goParseFloat s with
    | some f => (f, true)
    | none => (.nan, false)
  | .bool b => (if b then .ofInt 1 else .ofInt 0, true)
  | .null => (.nan, true)
  | .other => (.nan, false)

/-- Go `fmt.Sprintf("%03d", n)`: decimal rendering left-padded with
zeroes to width 3 (used for the millisecond part of the compact
timestamp rendering). -/
def pad3 (n : Nat) : GoStr :=
  if n < 10 then gs "00" ++ gs (toString n)
  else if n < 100 then gs "0" ++ gs (toString n)
  else gs (toString n)

/-- Model of Go `fmt.Sprintf("%v", f)` for a `float64`.  The claims never
compare float renderings byte-for-byte, so the symbolic value is rendered
symbolically: an integer-valued float prints its integer (as Go does for
e.g. `1.0` ↦ `"1"`), `NaN` prints `"NaN"`, and a parsed value reprints
its source text (the library's shortest-representation output is not
modelled further). -/
def GoFloat.render : GoFloat → GoStr
  | .ofInt i => gs (toString i)
  | .nan => gs "NaN"
  | .parsed s => s

/-- Embedding of `utils.DbToString` (utils.go): the type switch
converting a database value to `(string, bool)` for label use.
`time2string` selects RFC3339Nano rendering over the compact
`"<unixSeconds><3-digit-millis>"` form. -/
def DbToString (t : DbValue) (time2string : Bool) : GoStr × Bool :=
  match t with
  | .int i => (gs (toString i), true)
  | .float f => (f.render, true)
  | .time v =>
    if time2string then (v.rfc3339nano, true)
    else (gs (toString v.unix) ++ pad3 (v.nanosecond / 1000000), true)
  | .null => ([], true)
  | .bytes b => (b, true)
  | .str s => (s, true)
  | .bool b => (if b then gs "true" else gs "false", true)
  | .other => ([], false)

/-- Embedding of the `utils.CharSetMap` table: `UTF8 ↦ "UTF-8"`,
`GBK ↦ GBK`, `GB18030 ↦ GBK` (GB18030 rides the GBK decoder family). -/
def CharSetMap : List (String × String) :=
  [("UTF8", "UTF-8"), ("GBK", "GBK"), ("GB18030", "GBK")]

/-- ASCII upper-casing of one character, modelling `strings.ToUpper` on
the ASCII charset names it is applied to. -/
def charUpper (c : Char) : Char :=
  if 97 ≤ c.toNat ∧ c.toNat ≤ 122 then Char.ofNat (c.toNat - 32) else c

/-- Model of `strings.ToUpper`, character-wise (its inputs here are the
ASCII charset names). -/
def strToUpper (s : String) : String := ⟨s.data.map charUpper⟩

/-- Embedding of `utils.GetMapCharset`: upper-case the name, look it up in
`CharSetMap`, fall back to the input itself. -/
def GetMapCharset (s : String) : String :=
  match CharSetMap.lookup (strToUpper s) with
  | some o => o
  | none => s

/-- Model of the external `golang.org/x/text` transcoding backend used by
`utils.DecodeByte`: given an IANA charset name and input bytes, either the
transcoded UTF-8 bytes or an error.  It bundles the two failure points of
the library call (`ianaindex.MIB.Encoding` lookup and the transform read),
both of which `decode`'s caller folds into a single error check. -/
structure Transcoder : Type where
  run : String → GoStr → Except Unit GoStr

/-- Embedding of `utils.DecodeByte` (utils.go): map the charset name
through `GetMapCharset`, then run the library decoder; the caller only
inspects whether an error occurred. -/
def DecodeByte (td : Transcoder) (b : GoStr) (charset : String) : Except Unit GoStr :=
  td.run (GetMapCharset charset) b

/-- Model of Go `strings.EqualFold` restricted to ASCII folding; every
string it is applied to in the embedded code (`Usage` roles) is ASCII. -/
def equalFold (a b : GoStr) : Bool :=
  a.map byteLower = b.map byteLower

/-- Modelled from the spec: the `config.MappedMETRIC` usage-role constant
is declared in the configuration package, which is not among the sources;
the spec (§3, §4.4) names the role "mapped/enumerated metric".  Only its
identity under case-insensitive comparison matters. -/
def MappedMETRIC : GoStr := gs "MAPPEDMETRIC"

/-- Prometheus sample value type (counter, gauge or untyped). -/
inductive ValueType : Type
  | counter
  | gauge
  | untyped
deriving DecidableEq

/-- Model of a `prometheus.Desc`: fully-qualified metric name, constant
labels and the ordered variable label names the descriptor expects. -/
structure Desc : Type where
  fqName : String
  help : String
  constLabels : List (String × String)
  variableLabels : List String
deriving DecidableEq

/-- Model of the `prometheus.Metric` produced by
`prometheus.MustNewConstMetric`: descriptor, value type, value and the
ordered label values. -/
structure Metric : Type where
  desc : Desc
  valueType : ValueType
  value : GoFloat
  labelValues : List GoStr
deriving DecidableEq

/-- The non-fatal errors the row pipeline can produce, carrying the same
data as the Go error values: `unexpectedValue` is
`errors.New(fmt.Sprintln("Unexpected error parsing column: ", metricName,
columnName, colValue))` from `newMetric`; `labelCountMismatch` is the
error value of the `prometheus.MustNewConstMetric` panic recovered by
`utils.RecoverErr` (inconsistent label-value count for the descriptor). -/
inductive Err : Type
  | unexpectedValue (metricName columnName : String) (v : DbValue)
  | labelCountMismatch (d : Desc) (given : Nat)
deriving DecidableEq

/-- Model of the external `prometheus.MustNewConstMetric`: constructs the
sample, panicking (modelled as `.error`) when the number of label values
does not match the descriptor's variable labels — the
descriptor/label-count mismatch the spec's recovered-internal error class
names. -/
def mustNewConstMetric (d : Desc) (vt : ValueType) (v : GoFloat) (labelValues : List GoStr) :
    Except Err Metric :=
  if labelValues.length = d.variableLabels.length then
    .ok { desc := d, valueType := vt, value := v, labelValues := labelValues }
  else
    .error (.labelCountMismatch d labelValues.length)

/-- Embedding of `config.GaussDBConnectConfig` (gaussdb.go), the target
database address record. -/
structure GaussDBConnectConfig : Type where
  address : String
  port : Int
  username : String
  password : String
  database : String

/-- Embedding of the package-level `config.MonitDB = &GaussDBConnectConfig{}`
declaration: the zero value of the record. -/
def MonitDB : GaussDBConnectConfig :=
  { address := "", port := 0, username := "", password := "", database := "" }

/-- The server-identity label set the collector passes to `GetColumn`:
`prometheus.Labels{"server": fmt.Sprintf("%s:%d", config.MonitDB.Address,
config.MonitDB.Port)}`. -/
def monitServerLabels : List (String × String) :=
  [("server", MonitDB.address ++ ":" ++ toString MonitDB.port)]

/-- Modelled from the spec: one declared result-column descriptor
(`config.Column`), declared in the configuration package absent from the
sources; its fields are exactly those the included code reads
(`DisCard`, `Histogram`, `Usage`, `CheckUTF8`, `PrometheusDesc`,
`PrometheusType`) plus the column name the spec says it is resolved by. -/
structure Column : Type where
  name : String
  usage : GoStr
  disCard : Bool
  histogram : Bool
  checkUTF8 : Bool
  prometheusDesc : Desc
  prometheusType : ValueType
deriving DecidableEq

/-- One SQL statement variant of a query definition (`config.Query`):
its text and its enable/disable status string. -/
structure Query : Type where
  sql : String
  status : String
deriving DecidableEq

/-- Modelled from the spec: the query definition (`config.QueryInstance`),
declared in the configuration package absent from the sources; fields are
those the included code reads: `Name`, `Queries`, `LabelNames`,
`DBNameLabel` and the column-descriptor table (spec §3). -/
structure QueryInstance : Type where
  name : String
  queries : List Query
  labelNames : List String
  dbNameLabel : String
  columns : List Column
deriving DecidableEq

/-- Modelled from the spec: `QueryInstance.GetColumn` (spec §4.3) "looks
up an explicit descriptor by exact column name; the server-identity label
set is attached to every resolved descriptor's constant labels"; absent
columns resolve to nil. -/
def QueryInstance.getColumn (qi : QueryInstance) (columnName : String)
    (serverLabels : List (String × String)) : Option Column :=
  match qi.columns.find? (fun c => c.name == columnName) with
  | none => none
  | some c =>
    some { c with prometheusDesc :=
      { c.prometheusDesc with constLabels := c.prometheusDesc.constLabels ++ serverLabels } }

/-- Embedding of `newMetric` (collector): build one sample from one
column of one row.  The Go function returns `(metric, err)`, both
nilable; the `defer utils.RecoverErr(&err)` installed after the coercion
check converts a `MustNewConstMetric` panic into the returned error, so
the panic surfaces here as `(none, some e)` rather than as divergence. -/
def newMetric (qi : QueryInstance) (col : Option Column) (columnName : String)
    (colValue : DbValue) (labels : List GoStr) : Option Metric × Option Err :=
  match col with
  | none => (none, none)
  | some c =>
    if c.disCard then (none, none)
    else if c.histogram then (none, none)
    else if equalFold c.usage MappedMETRIC then (none, none)
    else
      match DbToFloat64 colValue with
      | (_, false) => (none, some (.unexpectedValue qi.name columnName colValue))
      | (value, true) =>
        match mustNewConstMetric c.prometheusDesc c.prometheusType value labels with
        | .ok m => (some m, none)
        | .error e => (none, some e)

/-- Embedding of `decode` (collector): coerce a label column's value to
text, then validate/repair its encoding.  Every return path of the Go
function carries a nil error, so the error component is always `none`;
the transcoding charset passed to `DecodeByte` is the constant `"UTF8"`
(the per-database charset selection is commented out in the source). -/
def decode (td : Transcoder) (qi : QueryInstance) (data : DbValue) (label : String)
    (dbName : GoStr) : GoStr × Option Err :=
  let v := (DbToString data false).1
  match qi.getColumn label monitServerLabels with
  | none => (v, none)
  | some col =>
    if !col.checkUTF8 then (v, none)
    else if validUTF8 v then (v, none)
    else if dbName = [] then ([], none)
    else
      match DecodeByte td v "UTF8" with
      | .error _ => ([], none)
      | .ok b => (b, none)

/-- One step of building the column-index map: record `n ↦ acc.2` on top
of the map so far (overwriting any earlier binding) and advance the
index counter. -/
def columnIdxStep (acc : (String → Nat) × Nat) (n : String) : (String → Nat) × Nat :=
  ((fun s => if s = n then acc.2 else acc.1 s), acc.2 + 1)

/-- Embedding of the column-index map built in `getMetric`:
`columnIdx := make(map[string]int); for i, n := range columnNames {
columnIdx[n] = i }`.  Later duplicates overwrite earlier entries and a
missing key yields Go's zero value `0`. -/
def buildColumnIdx (names : List String) : String → Nat :=
  (names.foldl columnIdxStep ((fun _ => 0), 0)).1

/-- The database-name resolution step of `procRows`: when `DBNameLabel`
is declared, read the row at its mapped index (a Go out-of-range index
panic is `none`) and coerce with `DbToString(_, true)`, ignoring the ok
flag; otherwise the name stays empty. -/
def rowDbName (qi : QueryInstance) (columnIdx : String → Nat) (columnData : List DbValue) :
    Option GoStr :=
  if qi.dbNameLabel ≠ "" then
    (columnData[columnIdx qi.dbNameLabel]?).map (fun v => (DbToString v true).1)
  else
    some []

/-- The label-resolution loop of `procRows`: for each declared label
column, read the row at its mapped index (out-of-range is a panic, i.e.
`none`) and `decode` it; the decode error is only logged, so the label
keeps the returned string in every case. -/
def rowLabels (td : Transcoder) (qi : QueryInstance) (columnIdx : String → Nat)
    (columnData : List DbValue) (dbName : GoStr) : Option (List GoStr) :=
  qi.labelNames.mapM (fun label =>
    (columnData[columnIdx label]?).map (fun v => (decode td qi v label dbName).1))

/-- The column loop of `procRows`, over `(index, columnName)` pairs from
`for idx, columnName := range columnNames`: resolve the descriptor, call
`newMetric` on the positionally-indexed value; on error append it and
continue, otherwise append the sample when one was produced.  An
out-of-range positional index (row shorter than the column list) is the
Go slice-index panic, `none`. -/
def procColumns (qi : QueryInstance) (labels : List GoStr) :
    List (Nat × String) → List DbValue → Option (List Metric × List Err)
  | [], _ => some ([], [])
  | (i, columnName) :: rest, columnData =>
    match columnData[i]? with
    | none => none
    | some v =>
      match newMetric qi (qi.getColumn columnName monitServerLabels) columnName v labels with
      | (m?, e?) =>
        match procColumns qi labels rest columnData with
        | none => none
        | some (ms, es) =>
          match e? with
          | some e => some (ms, e :: es)
          | none =>
            match m? with
            | some m => some (m :: ms, es)
            | none => some (ms, es)

/-- Embedding of `procRows` (collector): resolve the database name and
the declared labels, then run the column loop; returns the samples and
the accumulated non-fatal errors, or `none` when the Go code would panic
on an out-of-range row index. -/
def procRows (td : Transcoder) (qi : QueryInstance) (columnNames : List String)
    (columnIdx : String → Nat) (columnData : List DbValue) :
    Option (List Metric × List Err) := do
  let dbName ← rowDbName qi columnIdx columnData
  let labels ← rowLabels td qi columnIdx columnData dbName
  procColumns qi labels columnNames.enum columnData

/-- The result of executing one SQL statement: the driver's column-name
list and the successfully scanned rows. -/
structure DbStmtResult : Type where
  columns : List String
  rows : List (List DbValue)

/-- A database connection, modelled as a map from statement text to its
result; `none` covers a `QueryContext` error or nil rows (both of which
`getMetric` skips with a log line).  Driver-level mid-scan errors are not
modelled: `rows` are the rows the scan loop accumulated. -/
def Conn : Type := String → Option DbStmtResult

/-- The statement loop of `getMetric`: skip disabled statements, skip
failed ones, and on success overwrite `columnNames` with the statement's
column list while appending its rows to the accumulated row list. -/
def getMetricLoop (db : Conn) :
    List Query → List String → List (List DbValue) → List String × List (List DbValue)
  | [], columnNames, list => (columnNames, list)
  | q :: rest, columnNames, list =>
    if q.status = "disable" then getMetricLoop db rest columnNames list
    else
      match db q.sql with
      | none => getMetricLoop db rest columnNames list
      | some res => getMetricLoop db rest res.columns (list ++ res.rows)

/-- Embedding of `getMetric` (collector): run every statement variant,
build one column-index map from the final column-name list, feed every
accumulated row through `procRows` (whose errors are ignored), and
flatten the per-row sample lists.  `none` propagates a row-processing
panic. -/
def getMetric (td : Transcoder) (db : Conn) (qi : QueryInstance) : Option (List Metric) := do
  let (columnNames, list) := getMetricLoop db qi.queries [] []
  let columnIdx := buildColumnIdx columnNames
  let results ← list.mapM (procRows td qi columnNames columnIdx)
  pure (results.map (fun r => r.1)).flatten

/-- The statement variants that actually contribute: enabled ones whose
execution succeeded, in statement order.  Used to state what
`getMetricLoop` computes. -/
def execResults (db : Conn) (qs : List Query) : List DbStmtResult :=
  qs.filterMap (fun q => if q.status = "disable" then none else db q.sql)

/-- The column-name list of the most recently executed statement: the
columns of the last element of `rs`, or `dflt` when no statement ran. -/
def lastColumns (dflt : List String) : List DbStmtResult → List String
  | [] => dflt
  | r :: rest => lastColumns r.columns rest

/-- The samples one column contributes to a `procRows` run, given the
`(metric?, err?)` pair `newMetric` returned for it: nothing when an error
was reported or no sample was built, the single sample otherwise. -/
def midMetrics (mm : Option Metric) (me : Option Err) : List Metric :=
  match me, mm with
  | none, some m => [m]
  | _, _ => []

/-- The errors one column contributes to a `procRows` run: the reported
error, if any. -/
def midErrs (me : Option Err) : List Err :=
  match me with
  | some e => [e]
  | none => []

/-! ### Concrete fixtures used by witness theorems -/

/-- A transcoder that accepts every charset and returns the input bytes
unchanged (a trivially succeeding backend, for witnesses). -/
def tdOk : Transcoder := ⟨fun _ b => .ok b⟩

/-- A transcoder that always fails (for witnesses of the failure path). -/
def tdErr : Transcoder := ⟨fun _ _ => .error ()⟩

/-- Fixture: a sample descriptor with the given variable labels. -/
def mkDesc (n : String) (vls : List String) : Desc :=
  { fqName := n, help := "h", constLabels := [], variableLabels := vls }

/-- Fixture: a column descriptor with the given flags. -/
def mkColumn (n : String) (usage : GoStr) (dc hg cu : Bool) (vls : List String) : Column :=
  { name := n, usage := usage, disCard := dc, histogram := hg, checkUTF8 := cu,
    prometheusDesc := mkDesc ("pg_database_" ++ n) vls, prometheusType := .gauge }

/-- Fixture: a query definition with the given pieces. -/
def mkQI (n : String) (qs : List Query) (lns : List String) (dbl : String)
    (cols : List Column) : QueryInstance :=
  { name := n, queries := qs, labelNames := lns, dbNameLabel := dbl, columns := cols }

/-- Fixture: the spec's `pg_database` scenario — label column `datname`,
gauge column `numbackends`. -/
def qiDatabase : QueryInstance :=
  mkQI "pg_database" [{ sql := "SELECT datname, numbackends FROM pg_stat_database",
                        status := "enable" }]
    ["datname"] "" [mkColumn "numbackends" (gs "GAUGE") false false false ["datname"]]

/-- Fixture: a definition whose only column declares two variable labels
while the definition declares none — the descriptor/label-count mismatch
that makes `prometheus.MustNewConstMetric` panic. -/
def qiMismatch : QueryInstance :=
  mkQI "q" [] [] "" [mkColumn "val" (gs "GAUGE") false false false ["a", "b"]]

/-- Fixture: the descriptor of `qiMismatch`'s `val` column as `getColumn`
resolves it. -/
def descValResolved : Desc :=
  { fqName := "pg_database_val", help := "h", constLabels := [("server", ":0")],
    variableLabels := ["a", "b"] }

/-- Fixture: the `val` column of `qiMismatch` as `getColumn` resolves it. -/
def colValResolved : Column :=
  { name := "val", usage := gs "GAUGE", disCard := false, histogram := false,
    checkUTF8 := false, prometheusDesc := descValResolved, prometheusType := .gauge }

/-- Fixture: the sample `qiDatabase` produces for row `("postgres", 3)`. -/
def sampleNumbackends : Metric :=
  { desc := { fqName := "pg_database_numbackends", help := "h",
              constLabels := [("server", ":0")], variableLabels := ["datname"] },
    valueType := .gauge, value := .ofInt 3, labelValues := [gs "postgres"] }

/-- Fixture: a definition with one UTF-8-checked label column `l`. -/
def qiLabelCheck : QueryInstance :=
  mkQI "q" [] [] "" [mkColumn "l" (gs "LABEL") false false true []]

/-- Fixture: a definition with no declared columns at all. -/
def qiEmpty : QueryInstance := mkQI "q" [] [] "" []

/-- Fixture: the `numbackends` column of `qiDatabase` as `getColumn`
resolves it, server-identity label attached. -/
def colNumbackendsResolved : Column :=
  { name := "numbackends", usage := gs "GAUGE", disCard := false, histogram := false,
    checkUTF8 := false,
    prometheusDesc := { fqName := "pg_database_numbackends", help := "h",
                        constLabels := [("server", ":0")],
                        variableLabels := ["datname"] },
    prometheusType := .gauge }

/-- Fixture: the `l` column of `qiLabelCheck` as `getColumn` resolves it,
server-identity label attached. -/
def colLResolved : Column :=
  { name := "l", usage := gs "LABEL", disCard := false, histogram := false,
    checkUTF8 := true,
    prometheusDesc := { fqName := "pg_database_l", help := "h",
                        constLabels := [("server", ":0")], variableLabels := [] },
    prometheusType := .gauge }

/-! ## Theorems -/

/-- Calling `DecodeByte` with the hard-coded charset `"UTF8"` reaches the backend
with the mapped IANA name `"UTF-8"`. -/
theorem DecodeByte_utf8 (td : Transcoder) (v : GoStr) :
    DecodeByte td v "UTF8" = td.run "UTF-8" v := rfl

/-- C1: `CoerceToNumber` (`DbToFloat64`) satisfies the exact kind-by-kind
contract: integer, float, timestamp (Unix seconds) and boolean inputs
coerce with ok=true; null gives (NaN, true); text and byte inputs give
the parsed value with ok=true on parse success and (NaN, false) on parse
failure; any other kind gives (NaN, false).  Consequently ok=false holds
exactly for unparseable text/bytes or an unknown kind, and whenever
ok=false the value is NaN. -/
theorem DbToFloat64_contract :
    (∀ i, DbToFloat64 (.int i) = (.ofInt i, true)) ∧
    (∀ f, DbToFloat64 (.float f) = (f, true)) ∧
    (∀ t, DbToFloat64 (.time t) = (.ofInt t.unix, true)) ∧
    (∀ b, DbToFloat64 (.bool b) = (if b then .ofInt 1 else .ofInt 0, true)) ∧
    DbToFloat64 .null = (.nan, true) ∧
    (∀ s, DbToFloat64 (.str s) =
      (match goParseFloat s with
       | some f => (f, true)
       | none => (.nan, false))) ∧
    (∀ b, DbToFloat64 (.bytes b) =
      (match goParseFloat b with
       | some f => (f, true)
       | none => (.nan, false))) ∧
    DbToFloat64 .other = (.nan, false) ∧
    (∀ v, (DbToFloat64 v).2 = false ↔
      (v = .other ∨
       (∃ s, v = .str s ∧ goParseFloat s = none) ∨
       (∃ b, v = .bytes b ∧ goParseFloat b = none))) ∧
    (∀ v, (DbToFloat64 v).2 = false → (DbToFloat64 v).1 = .nan) := by
  refine ⟨fun _ => rfl, fun _ => rfl, fun _ => rfl, fun b => by cases b <;> rfl, rfl,
    fun s => rfl, fun b => rfl, rfl, fun v => ?_, fun v => ?_⟩
  · cases v <;> simp [DbToFloat64]
    · rename_i f
      cases h : goParseFloat f <;> simp [h]
    · rename_i b
      cases h : goParseFloat b <;> simp [h]
  · cases v <;> simp [DbToFloat64]
    · rename_i f
      cases h : goParseFloat f <;> simp [h]
    · rename_i b
      cases h : goParseFloat b <;> simp [h]

/-- Witness for C1 at concrete inputs: an integer coerces exactly, null
gives (NaN, true), the text "3.5e2" parses, and the unparseable text
"N/A" falls in the ok=false class with value NaN. -/
theorem DbToFloat64_contract_witness :
    DbToFloat64 (.int 3) = (.ofInt 3, true) ∧
    DbToFloat64 .null = (.nan, true) ∧
    DbToFloat64 (.str (gs "3.5e2")) = (.parsed (gs "3.5e2"), true) ∧
    ((DbToFloat64 (.str (gs "N/A"))).2 = false ↔
      ((.str (gs "N/A") : DbValue) = .other ∨
       (∃ s, (.str (gs "N/A") : DbValue) = .str s ∧ goParseFloat s = none) ∨
       (∃ b, (.str (gs "N/A") : DbValue) = .bytes b ∧ goParseFloat b = none))) ∧
    (DbToFloat64 (.str (gs "N/A"))).1 = .nan := by
  refine ⟨DbToFloat64_contract.1 3, DbToFloat64_contract.2.2.2.2.1, ?_, ?_, ?_⟩
  · rw [DbToFloat64_contract.2.2.2.2.2.1 (gs "3.5e2")]
    decide
  · exact DbToFloat64_contract.2.2.2.2.2.2.2.2.1 (.str (gs "N/A"))
  · exact DbToFloat64_contract.2.2.2.2.2.2.2.2.2 (.str (gs "N/A")) (by decide)

/-- C7: `CoerceToText` (`DbToString`) satisfies the kind-by-kind
contract: integer and float render as their decimal strings with ok=true;
a timestamp renders as the RFC3339Nano string when `time2string` is true
and otherwise as the compact unix-seconds-plus-3-digit-millis form, with
ok=true; null gives ("", true); bytes are reinterpreted as a raw string;
text passes through; booleans render "true"/"false"; every unknown kind
gives ("", false), and ok=false happens only there. -/
theorem DbToString_contract :
    (∀ i b, DbToString (.int i) b = (gs (toString i), true)) ∧
    (∀ f b, DbToString (.float f) b = (f.render, true)) ∧
    (∀ t, DbToString (.time t) true = (t.rfc3339nano, true)) ∧
    (∀ t, DbToString (.time t) false =
      (gs (toString t.unix) ++ pad3 (t.nanosecond / 1000000), true)) ∧
    (∀ b, DbToString .null b = ([], true)) ∧
    (∀ s b, DbToString (.bytes s) b = (s, true)) ∧
    (∀ s b, DbToString (.str s) b = (s, true)) ∧
    (∀ b, DbToString (.bool true) b = (gs "true", true)) ∧
    (∀ b, DbToString (.bool false) b = (gs "false", true)) ∧
    (∀ b, DbToString .other b = ([], false)) ∧
    (∀ v b, (DbToString v b).2 = false ↔ v = .other) := by
  refine ⟨fun _ _ => rfl, fun _ _ => rfl, fun _ => rfl, fun _ => rfl, fun _ => rfl,
    fun _ _ => rfl, fun _ _ => rfl, fun _ => rfl, fun _ => rfl, fun _ => rfl,
    fun v b => ?_⟩
  cases v <;> simp [DbToString]
  cases b <;> simp

/-- Witness for C7 at concrete inputs: a negative integer renders as its
decimal string, null renders empty with ok=true, a compact timestamp
rendering pads its milliseconds, and ok=false characterizes the unknown
kind only. -/
theorem DbToString_contract_witness :
    DbToString (.int (-7)) false = (gs "-7", true) ∧
    DbToString .null true = ([], true) ∧
    DbToString (.time { unix := 12, nanosecond := 5000000, rfc3339nano := gs "t" }) false =
      (gs "12" ++ pad3 5, true) ∧
    ((DbToString (.str (gs "x")) true).2 = false ↔ (.str (gs "x") : DbValue) = .other) := by
  refine ⟨DbToString_contract.1 (-7) false, DbToString_contract.2.2.2.2.1 true, ?_, ?_⟩
  · rw [DbToString_contract.2.2.2.1 { unix := 12, nanosecond := 5000000, rfc3339nano := gs "t" }]
    decide
  · exact DbToString_contract.2.2.2.2.2.2.2.2.2.2 (.str (gs "x")) true

/-- C5: `ValidateAndFix` (`decode`) contract.  Writing `v` for the text
coercion of the column value: when no descriptor is declared for the
label column, or the descriptor does not require the UTF-8 check, or `v`
is already well-formed UTF-8, the text is returned unchanged; otherwise
an empty database name yields ""; otherwise the text is transcoded via
the charset table (which supports UTF-8, GBK and GB18030, mapping GB18030
onto the GBK decoder family), returning the transcoded bytes on success
and "" on failure.  In every case the returned error is nil. -/
theorem decode_contract :
    (∀ td qi data label dbn, qi.getColumn label monitServerLabels = none →
      decode td qi data label dbn = ((DbToString data false).1, none)) ∧
    (∀ td qi data label dbn c, qi.getColumn label monitServerLabels = some c →
      c.checkUTF8 = false →
      decode td qi data label dbn = ((DbToString data false).1, none)) ∧
    (∀ td qi data label dbn, validUTF8 (DbToString data false).1 = true →
      decode td qi data label dbn = ((DbToString data false).1, none)) ∧
    (∀ td qi data label dbn c, qi.getColumn label monitServerLabels = some c →
      c.checkUTF8 = true → validUTF8 (DbToString data false).1 = false →
      dbn = [] → decode td qi data label dbn = ([], none)) ∧
    (∀ td qi data label dbn c b, qi.getColumn label monitServerLabels = some c →
      c.checkUTF8 = true → validUTF8 (DbToString data false).1 = false →
      dbn ≠ [] → td.run "UTF-8" (DbToString data false).1 = .ok b →
      decode td qi data label dbn = (b, none)) ∧
    (∀ td qi data label dbn c e, qi.getColumn label monitServerLabels = some c →
      c.checkUTF8 = true → validUTF8 (DbToString data false).1 = false →
      dbn ≠ [] → td.run "UTF-8" (DbToString data false).1 = .error e →
      decode td qi data label dbn = ([], none)) ∧
    (∀ td qi data label dbn, (decode td qi data label dbn).2 = none) ∧
    GetMapCharset "UTF8" = "UTF-8" ∧
    GetMapCharset "GBK" = "GBK" ∧
    GetMapCharset "GB18030" = "GBK" := by
  refine ⟨?_, ?_, ?_, ?_, ?_, ?_, ?_, rfl, rfl, rfl⟩
  · intro td qi data label dbn h
    simp [decode, h]
  · intro td qi data label dbn c h hc
    simp [decode, h, hc]
  · intro td qi data label dbn hv
    unfold decode
    cases h : qi.getColumn label monitServerLabels with
    | none => simp
    | some c =>
      simp only [hv]
      by_cases hc : c.checkUTF8 <;> simp [hc]
  · intro td qi data label dbn c h hc hv hd
    simp [decode, h, hc, hv, hd]
  · intro td qi data label dbn c b h hc hv hd hb
    simp [decode, h, hc, hv, hd, DecodeByte_utf8, hb]
  · intro td qi data label dbn c e h hc hv hd he
    simp [decode, h, hc, hv, hd, DecodeByte_utf8, he]
  · intro td qi data label dbn
    unfold decode
    cases h : qi.getColumn label monitServerLabels with
    | none => simp
    | some c =>
      by_cases hc : c.checkUTF8 <;> simp [hc]
      by_cases hv : validUTF8 (DbToString data false).1 <;> simp [hv]
      by_cases hd : dbn = [] <;> simp [hd]
      cases hb : DecodeByte td (DbToString data false).1 "UTF8" <;> simp [hb]

/-- Witness for C5 at concrete inputs: a column with no descriptor passes
text through; a `CheckUTF8` descriptor passes well-formed UTF-8 through,
degrades the byte `0xFF` to "" when no database name is known, returns
the transcoder's output when one is, and "" when transcoding fails; and
the charset table maps GB18030 to the GBK family. -/
theorem decode_contract_witness :
    decode tdOk qiEmpty (.str (gs "x")) "l" [] = (gs "x", none) ∧
    decode tdOk qiLabelCheck (.str (gs "ok")) "l" [] = (gs "ok", none) ∧
    decode tdOk qiLabelCheck (.str [0xFF]) "l" [] = ([], none) ∧
    decode tdOk qiLabelCheck (.str [0xFF]) "l" (gs "db") = ([0xFF], none) ∧
    decode tdErr qiLabelCheck (.str [0xFF]) "l" (gs "db") = ([], none) ∧
    GetMapCharset "GB18030" = "GBK" := by
  refine ⟨?_, ?_, ?_, ?_, ?_, decode_contract.2.2.2.2.2.2.2.2.2⟩
  · exact decode_contract.1 _ _ _ _ _ (by decide)
  · exact decode_contract.2.2.1 _ _ _ _ _ (by decide)
  · exact decode_contract.2.2.2.1 tdOk qiLabelCheck (.str [0xFF]) "l" [] colLResolved
      (by decide) (by decide) (by decide) rfl
  · exact decode_contract.2.2.2.2.1 tdOk qiLabelCheck (.str [0xFF]) "l" (gs "db")
      colLResolved [0xFF] (by decide) (by decide) (by decide) (by decide) rfl
  · exact decode_contract.2.2.2.2.2.1 tdErr qiLabelCheck (.str [0xFF]) "l" (gs "db")
      colLResolved () (by decide) (by decide) (by decide) (by decide) rfl

/-- C3: a column with no declared descriptor, or whose descriptor is
marked discard, histogram or mapped-metric usage, produces neither a
sample nor an error from `newMetric`: such columns are silently skipped
and never auto-promote to untyped metrics.  An undeclared name resolves
to nil through `getColumn`. -/
theorem newMetric_skips_undeclared_and_special :
    (∀ (qi : QueryInstance) (n : String) (sl : List (String × String)),
      qi.columns.find? (fun c => c.name == n) = none →
      qi.getColumn n sl = none) ∧
    (∀ (qi : QueryInstance) name v ls, newMetric qi none name v ls = (none, none)) ∧
    (∀ (qi : QueryInstance) (c : Column) name v ls, c.disCard = true →
      newMetric qi (some c) name v ls = (none, none)) ∧
    (∀ (qi : QueryInstance) (c : Column) name v ls, c.histogram = true →
      newMetric qi (some c) name v ls = (none, none)) ∧
    (∀ (qi : QueryInstance) (c : Column) name v ls, equalFold c.usage MappedMETRIC = true →
      newMetric qi (some c) name v ls = (none, none)) := by
  refine ⟨?_, fun _ _ _ _ => rfl, ?_, ?_, ?_⟩
  · intro qi n sl h
    simp [QueryInstance.getColumn, h]
  · intro qi c name v ls h
    simp [newMetric, h]
  · intro qi c name v ls h
    unfold newMetric
    by_cases hd : c.disCard <;> simp [hd, h]
  · intro qi c name v ls h
    unfold newMetric
    by_cases hd : c.disCard <;> by_cases hh : c.histogram <;> simp [hd, hh, h]

/-- Witness for C3: concrete undeclared, discard, histogram and
mapped-usage columns all yield `(none, none)`. -/
theorem newMetric_skips_witness :
    QueryInstance.getColumn qiEmpty "c" monitServerLabels = none ∧
    newMetric qiEmpty none "c" (.int 1) [] = (none, none) ∧
    newMetric qiEmpty (some (mkColumn "c" (gs "GAUGE") true false false []))
      "c" (.int 1) [] = (none, none) ∧
    newMetric qiEmpty (some (mkColumn "c" (gs "GAUGE") false true false []))
      "c" (.int 1) [] = (none, none) ∧
    newMetric qiEmpty (some (mkColumn "c" (gs "MappedMetric") false false false []))
      "c" (.int 1) [] = (none, none) := by
  refine ⟨newMetric_skips_undeclared_and_special.1 _ _ _ (by decide),
    newMetric_skips_undeclared_and_special.2.1 _ "c" (.int 1) [],
    newMetric_skips_undeclared_and_special.2.2.1 _ _ _ _ _ rfl,
    newMetric_skips_undeclared_and_special.2.2.2.1 _ _ _ _ _ rfl,
    newMetric_skips_undeclared_and_special.2.2.2.2 _ _ _ _ _ (by decide)⟩

theorem enumFrom_append_eq {α : Type _} (xs ys : List α) (n : Nat) :
    List.enumFrom n (xs ++ ys) = List.enumFrom n xs ++ List.enumFrom (n + xs.length) ys := by
  induction xs generalizing n with
  | nil => simp [List.enumFrom]
  | cons x xs ih =>
    have h : n + 1 + xs.length = n + (xs.length + 1) := by omega
    simp only [List.cons_append, List.enumFrom, List.length_cons]
    rw [← h]
    exact congrArg (fun l => (n, x) :: l) (ih (n + 1))

theorem procColumns_cons (qi : QueryInstance) (labels : List GoStr) (i : Nat)
    (columnName : String) (rest : List (Nat × String)) (row : List DbValue) :
    procColumns qi labels ((i, columnName) :: rest) row =
      match row[i]? with
      | none => none
      | some v =>
        match newMetric qi (qi.getColumn columnName monitServerLabels) columnName v labels with
        | (m?, e?) =>
          match procColumns qi labels rest row with
          | none => none
          | some (ms, es) =>
            match e? with
            | some e => some (ms, e :: es)
            | none =>
              match m? with
              | some m => some (m :: ms, es)
              | none => some (ms, es) := rfl

theorem procColumns_append (qi : QueryInstance) (labels : List GoStr)
    (ps qs : List (Nat × String)) (row : List DbValue) :
    procColumns qi labels (ps ++ qs) row =
      (procColumns qi labels ps row).bind (fun r1 =>
        (procColumns qi labels qs row).bind (fun r2 =>
          some (r1.1 ++ r2.1, r1.2 ++ r2.2))) := by
  induction ps with
  | nil =>
    simp only [List.nil_append, procColumns, Option.some_bind]
    cases h : procColumns qi labels qs row <;> simp
  | cons p ps ih =>
    obtain ⟨i, columnName⟩ := p
    rw [List.cons_append, procColumns_cons, procColumns_cons, ih]
    cases hv : row[i]? with
    | none => rfl
    | some v =>
      cases hp : procColumns qi labels ps row with
      | none => simp
      | some r1 =>
        obtain ⟨ms, es⟩ := r1
        cases hq : procColumns qi labels qs row with
        | none =>
          cases he : (newMetric qi (qi.getColumn columnName monitServerLabels)
              columnName v labels).2 with
          | some e => simp [he]
          | none =>
            cases hm : (newMetric qi (qi.getColumn columnName monitServerLabels)
              columnName v labels).1 <;> simp [he, hm]
        | some r2 =>
          obtain ⟨ms2, es2⟩ := r2
          cases he : (newMetric qi (qi.getColumn columnName monitServerLabels)
              columnName v labels).2 with
          | some e => simp [he]
          | none =>
            cases hm : (newMetric qi (qi.getColumn columnName monitServerLabels)
              columnName v labels).1 <;> simp [he, hm]

theorem enumFrom_fst_lt {α : Type _} {p : Nat × α} :
    ∀ (l : List α) (n : Nat), p ∈ List.enumFrom n l → p.1 < n + l.length := by
  intro l
  induction l with
  | nil => simp [List.enumFrom]
  | cons x xs ih =>
    intro n hp
    simp only [List.enumFrom, List.mem_cons] at hp
    rcases hp with h | h
    · subst h
      simp
    · have := ih (n + 1) h
      simp only [List.length_cons]
      omega

theorem procColumns_total (qi : QueryInstance) (labels : List GoStr) (row : List DbValue) :
    ∀ ps : List (Nat × String), (∀ p ∈ ps, p.1 < row.length) →
      ∃ r, procColumns qi labels ps row = some r := by
  intro ps
  induction ps with
  | nil => exact fun _ => ⟨([], []), rfl⟩
  | cons p ps ih =>
    intro h
    obtain ⟨i, columnName⟩ := p
    have hi : i < row.length := h (i, columnName) (List.mem_cons_self _ _)
    have hv : row[i]? = some row[i] := List.getElem?_eq_getElem hi
    obtain ⟨⟨ms, es⟩, hrec⟩ := ih (fun q hq => h q (List.mem_cons_of_mem _ hq))
    simp only [procColumns, hv, hrec]
    cases hm : newMetric qi (qi.getColumn columnName monitServerLabels) columnName
        row[i] labels with
    | mk m? e? =>
      cases e? with
      | some e => exact ⟨_, rfl⟩
      | none => cases m? <;> exact ⟨_, rfl⟩

theorem foldl_columnIdxStep_not_mem :
    ∀ (names : List String) (acc : (String → Nat) × Nat) (l : String), l ∉ names →
      (names.foldl columnIdxStep acc).1 l = acc.1 l := by
  intro names
  induction names with
  | nil => intro acc l _; rfl
  | cons n names ih =>
    intro acc l hl
    have hne : l ≠ n := fun h => hl (h ▸ List.mem_cons_self _ _)
    have hnm : l ∉ names := fun h => hl (List.mem_cons_of_mem _ h)
    rw [List.foldl_cons, ih (columnIdxStep acc n) l hnm]
    simp [columnIdxStep, hne]

theorem buildColumnIdx_not_mem (names : List String) (l : String) (h : l ∉ names) :
    buildColumnIdx names l = 0 :=
  foldl_columnIdxStep_not_mem names _ l h

theorem mapM_option_eq_map {α β : Type _} (f : α → Option β) (g : α → β) :
    ∀ xs : List α, (∀ x ∈ xs, f x = some (g x)) → xs.mapM f = some (xs.map g) := by
  intro xs
  induction xs with
  | nil => intro _; rfl
  | cons x xs ih =>
    intro h
    rw [List.mapM_cons, h x (List.mem_cons_self _ _),
      ih (fun y hy => h y (List.mem_cons_of_mem _ hy))]
    rfl

/-- The shape of a `procRows` run in which one designated column (`name`,
at position `pre.length`) is singled out: the run succeeds, the output
lists are the designated column's own contribution spliced between those
of the columns before and after it. -/
theorem procRows_split_mid
    (td : Transcoder) (qi : QueryInstance) (idx : String → Nat) (row : List DbValue)
    (pre post : List String) (name : String) (dbn : GoStr) (labels : List GoStr)
    (v : DbValue) (mm : Option Metric) (me : Option Err)
    (m1 m2 : List Metric) (e1 e2 : List Err)
    (hdb : rowDbName qi idx row = some dbn)
    (hlb : rowLabels td qi idx row dbn = some labels)
    (hv : row[pre.length]? = some v)
    (hmid : newMetric qi (qi.getColumn name monitServerLabels) name v labels = (mm, me))
    (hpre : procColumns qi labels pre.enum row = some (m1, e1))
    (hpost : procColumns qi labels (List.enumFrom (pre.length + 1) post) row =
      some (m2, e2)) :
    procRows td qi (pre ++ name :: post) idx row =
      some (m1 ++ midMetrics mm me ++ m2, e1 ++ midErrs me ++ e2) := by
  have henum : (pre ++ name :: post).enum =
      pre.enum ++ (pre.length, name) :: List.enumFrom (pre.length + 1) post := by
    simp only [List.enum, enumFrom_append_eq, Nat.zero_add, List.enumFrom]
  have hmidrun : procColumns qi labels
      ((pre.length, name) :: List.enumFrom (pre.length + 1) post) row =
      some (midMetrics mm me ++ m2, midErrs me ++ e2) := by
    rw [procColumns_cons, hv]
    simp only [hmid, hpost]
    cases me with
    | some e => simp [midMetrics, midErrs]
    | none => cases mm <;> simp [midMetrics, midErrs]
  simp only [procRows, hdb, Option.bind_eq_bind, Option.some_bind, hlb, henum,
    procColumns_append, hpre, hmidrun, Option.some_bind]
  simp [List.append_assoc]

/-- C2: in `procRows`, a column whose value fails numeric coercion (for a
declared, non-discard, non-histogram, non-mapped descriptor) contributes
zero samples and exactly one non-fatal error carrying the metric name and
the column name; every other column of the row is still processed (the
prefix and suffix contributions are exactly those of their own columns)
and the row as a whole still returns normally. -/
theorem procRows_unparseable_column
    (td : Transcoder) (qi : QueryInstance) (idx : String → Nat) (row : List DbValue)
    (pre post : List String) (name : String) (dbn : GoStr) (labels : List GoStr)
    (col : Column) (v : DbValue) (m1 m2 : List Metric) (e1 e2 : List Err)
    (hdb : rowDbName qi idx row = some dbn)
    (hlb : rowLabels td qi idx row dbn = some labels)
    (hcol : qi.getColumn name monitServerLabels = some col)
    (hdc : col.disCard = false) (hhg : col.histogram = false)
    (hmp : equalFold col.usage MappedMETRIC = false)
    (hv : row[pre.length]? = some v)
    (hfail : (DbToFloat64 v).2 = false)
    (hpre : procColumns qi labels pre.enum row = some (m1, e1))
    (hpost : procColumns qi labels (List.enumFrom (pre.length + 1) post) row =
      some (m2, e2)) :
    procRows td qi (pre ++ name :: post) idx row =
      some (m1 ++ m2, e1 ++ Err.unexpectedValue qi.name name v :: e2) := by
  have hmid : newMetric qi (qi.getColumn name monitServerLabels) name v labels =
      (none, some (.unexpectedValue qi.name name v)) := by
    cases hcoerce : DbToFloat64 v with
    | mk f ok =>
      have hok : ok = false := by
        have := hfail
        rw [hcoerce] at this
        exact this
      subst hok
      simp [newMetric, hcol, hdc, hhg, hmp, hcoerce]
  have := procRows_split_mid td qi idx row pre post name dbn labels v none
    (some (.unexpectedValue qi.name name v)) m1 m2 e1 e2 hdb hlb hv hmid hpre hpost
  simpa using this

/-- Witness for C2, the spec's `pg_database` scenario: row
`("postgres", "bad")` with gauge column `numbackends` yields zero samples
and exactly the one error naming `pg_database` and `numbackends`. -/
theorem procRows_unparseable_column_witness :
    procRows tdOk qiDatabase (["datname"] ++ "numbackends" :: [])
      (buildColumnIdx ["datname", "numbackends"])
      [.str (gs "postgres"), .str (gs "bad")] =
      some ([] ++ [],
        [] ++ Err.unexpectedValue "pg_database" "numbackends" (.str (gs "bad")) :: []) := by
  exact procRows_unparseable_column tdOk qiDatabase
    (buildColumnIdx ["datname", "numbackends"])
    [.str (gs "postgres"), .str (gs "bad")]
    ["datname"] [] "numbackends" [] [gs "postgres"]
    colNumbackendsResolved (.str (gs "bad")) [] [] [] []
    (by decide) (by decide) (by decide) (by decide) (by decide) (by decide)
    (by decide) (by decide) (by decide) (by decide)

/-- C8: a construction panic inside `newMetric` after successful numeric
coercion — the descriptor/label-count mismatch raised by
`prometheus.MustNewConstMetric` — is caught at the sample-construction
boundary (`utils.RecoverErr`) and becomes a non-fatal returned error, and
`procRows` then treats it like any per-column error: it is appended to
the error list while the rest of the row is still processed and the call
returns normally instead of propagating the panic. -/
theorem newMetric_panic_recovered :
    (∀ (qi : QueryInstance) (col : Column) (name : String) (v : DbValue)
      (labels : List GoStr),
      col.disCard = false → col.histogram = false →
      equalFold col.usage MappedMETRIC = false →
      (DbToFloat64 v).2 = true →
      labels.length ≠ col.prometheusDesc.variableLabels.length →
      newMetric qi (some col) name v labels =
        (none, some (.labelCountMismatch col.prometheusDesc labels.length))) ∧
    (∀ (td : Transcoder) (qi : QueryInstance) (idx : String → Nat) (row : List DbValue)
      (pre post : List String) (name : String) (dbn : GoStr) (labels : List GoStr)
      (col : Column) (v : DbValue) (m1 m2 : List Metric) (e1 e2 : List Err),
      rowDbName qi idx row = some dbn →
      rowLabels td qi idx row dbn = some labels →
      qi.getColumn name monitServerLabels = some col →
      col.disCard = false → col.histogram = false →
      equalFold col.usage MappedMETRIC = false →
      row[pre.length]? = some v →
      (DbToFloat64 v).2 = true →
      labels.length ≠ col.prometheusDesc.variableLabels.length →
      procColumns qi labels pre.enum row = some (m1, e1) →
      procColumns qi labels (List.enumFrom (pre.length + 1) post) row = some (m2, e2) →
      procRows td qi (pre ++ name :: post) idx row =
        some (m1 ++ m2,
          e1 ++ Err.labelCountMismatch col.prometheusDesc labels.length :: e2)) := by
  have hpart1 : ∀ (qi : QueryInstance) (col : Column) (name : String) (v : DbValue)
      (labels : List GoStr),
      col.disCard = false → col.histogram = false →
      equalFold col.usage MappedMETRIC = false →
      (DbToFloat64 v).2 = true →
      labels.length ≠ col.prometheusDesc.variableLabels.length →
      newMetric qi (some col) name v labels =
        (none, some (.labelCountMismatch col.prometheusDesc labels.length)) := by
    intro qi col name v labels hdc hhg hmp hok hmis
    cases hcoerce : DbToFloat64 v with
    | mk f ok =>
      have : ok = true := by
        have h := hok
        rw [hcoerce] at h
        exact h
      subst this
      simp [newMetric, hdc, hhg, hmp, hcoerce, mustNewConstMetric, hmis]
  refine ⟨hpart1, ?_⟩
  intro td qi idx row pre post name dbn labels col v m1 m2 e1 e2
    hdb hlb hcol hdc hhg hmp hv hok hmis hpre hpost
  have hmid : newMetric qi (qi.getColumn name monitServerLabels) name v labels =
      (none, some (.labelCountMismatch col.prometheusDesc labels.length)) := by
    rw [hcol]
    exact hpart1 qi col name v labels hdc hhg hmp hok hmis
  have := procRows_split_mid td qi idx row pre post name dbn labels v none
    (some (.labelCountMismatch col.prometheusDesc labels.length)) m1 m2 e1 e2
    hdb hlb hv hmid hpre hpost
  simpa [midMetrics, midErrs] using this

/-- Witness for C8: a gauge column declaring labels `["a","b"]` inside a
definition that supplies no label values — the recovered mismatch error
lands in the error list and the row still returns. -/
theorem newMetric_panic_recovered_witness :
    newMetric qiMismatch (some colValResolved) "val" (.int 7) [] =
      (none, some (.labelCountMismatch descValResolved 0)) ∧
    procRows tdOk qiMismatch ([] ++ "val" :: []) (buildColumnIdx ["val"]) [.int 7] =
      some ([] ++ [], [] ++ Err.labelCountMismatch descValResolved 0 :: []) := by
  constructor
  · exact newMetric_panic_recovered.1 qiMismatch colValResolved "val" (.int 7) []
      rfl rfl (by decide) (by decide) (by decide)
  · exact newMetric_panic_recovered.2 tdOk qiMismatch (buildColumnIdx ["val"]) [.int 7]
      [] [] "val" [] [] colValResolved (.int 7) [] [] [] []
      (by decide) (by decide) (by decide) rfl rfl (by decide) (by decide) (by decide)
      (by decide) (by decide) (by decide)

/-- C9: `procRows` is deterministic and mutation-free: it is a pure
function of the query definition, column names, column-index map and row
values — two runs on identical inputs yield structurally identical sample
and error lists.  The embedding is pure because the Go function never
writes through the shared `*QueryInstance` (its descriptors included);
accordingly no modified definition is produced or returned. -/
theorem procRows_deterministic
    (td : Transcoder) (qi : QueryInstance) (cn : List String) (idx : String → Nat)
    (row : List DbValue) (r1 r2 : Option (List Metric × List Err))
    (h1 : procRows td qi cn idx row = r1) (h2 : procRows td qi cn idx row = r2) :
    r1 = r2 :=
  h1.symm.trans h2

/-- Witness for C9: two evaluations of the `pg_database` scenario row
produce the same samples and errors. -/
theorem procRows_deterministic_witness :
    (some ([sampleNumbackends], []) : Option (List Metric × List Err)) =
      some ([sampleNumbackends], []) :=
  procRows_deterministic tdOk qiDatabase ["datname", "numbackends"]
    (buildColumnIdx ["datname", "numbackends"])
    [.str (gs "postgres"), .int 3]
    (some ([sampleNumbackends], [])) (some ([sampleNumbackends], []))
    (by decide) (by decide)

/-- C10: when the column-index map lacks a declared label column (or the
database-name label column), `procRows` on a non-empty row neither fails
nor records an error for it: the missing name's lookup yields Go's zero
value 0, so the label (and the database name) is silently coerced from
the row's first column, and the run proceeds to the column loop exactly
as if that were the intended source. -/
theorem procRows_missing_label_uses_first_column
    (td : Transcoder) (qi : QueryInstance) (cn : List String) (v0 : DbValue)
    (rest : List DbValue)
    (hl : ∀ l ∈ qi.labelNames, l ∉ cn)
    (hd : qi.dbNameLabel ∉ cn)
    (hlen : cn.length ≤ (v0 :: rest).length) :
    ∃ M E, procRows td qi cn (buildColumnIdx cn) (v0 :: rest) = some (M, E) ∧
      procColumns qi
        (qi.labelNames.map (fun l => (decode td qi v0 l
          (if qi.dbNameLabel = "" then [] else (DbToString v0 true).1)).1))
        cn.enum (v0 :: rest) = some (M, E) := by
  have hdbn : rowDbName qi (buildColumnIdx cn) (v0 :: rest) =
      some (if qi.dbNameLabel = "" then [] else (DbToString v0 true).1) := by
    unfold rowDbName
    by_cases h0 : qi.dbNameLabel = ""
    · simp [h0]
    · have hidx : buildColumnIdx cn qi.dbNameLabel = 0 := buildColumnIdx_not_mem cn _ hd
      simp [h0, hidx]
  have hlbs : rowLabels td qi (buildColumnIdx cn) (v0 :: rest)
      (if qi.dbNameLabel = "" then [] else (DbToString v0 true).1) =
      some (qi.labelNames.map (fun l => (decode td qi v0 l
        (if qi.dbNameLabel = "" then [] else (DbToString v0 true).1)).1)) := by
    unfold rowLabels
    apply mapM_option_eq_map
    intro l hlmem
    have hidx : buildColumnIdx cn l = 0 := buildColumnIdx_not_mem cn l (hl l hlmem)
    simp [hidx]
  obtain ⟨⟨M, E⟩, hME⟩ := procColumns_total qi
    (qi.labelNames.map (fun l => (decode td qi v0 l
      (if qi.dbNameLabel = "" then [] else (DbToString v0 true).1)).1))
    (v0 :: rest) cn.enum
    (fun p hp => by
      have := enumFrom_fst_lt cn 0 hp
      simp only [List.length_cons] at hlen ⊢
      omega)
  refine ⟨M, E, ?_, hME⟩
  simp only [procRows, hdbn, Option.bind_eq_bind, Option.some_bind, hlbs, hME]

/-- Witness for C10: label column `missing` absent from the executed
column list `["a"]` — the label silently comes from the first column of
the row and the run returns without error. -/
theorem procRows_missing_label_witness :
    ∃ M E, procRows tdOk (mkQI "q" [] ["missing"] "" []) ["a"]
        (buildColumnIdx ["a"]) [.int 5] = some (M, E) ∧
      procColumns (mkQI "q" [] ["missing"] "" [])
        ((mkQI "q" [] ["missing"] "" []).labelNames.map
          (fun l => (decode tdOk (mkQI "q" [] ["missing"] "" []) (.int 5) l
            (if (mkQI "q" [] ["missing"] "" []).dbNameLabel = ""
             then [] else (DbToString (.int 5) true).1)).1))
        (["a"] : List String).enum [.int 5] = some (M, E) :=
  procRows_missing_label_uses_first_column tdOk (mkQI "q" [] ["missing"] "" [])
    ["a"] (.int 5) [] (by decide) (by decide) (by decide)

theorem lastColumns_eq_getLast? :
    ∀ (rs : List DbStmtResult) (dflt : List String),
      lastColumns dflt rs =
        (match rs.getLast? with
         | some r => r.columns
         | none => dflt) := by
  intro rs
  induction rs with
  | nil => intro dflt; rfl
  | cons r rest ih =>
    intro dflt
    cases rest with
    | nil => rfl
    | cons b bs =>
      rw [lastColumns, ih r.columns, List.getLast?_cons_cons]
      cases hg : (b :: bs).getLast? with
      | none => simp at hg
      | some x => simp [hg]

theorem execResults_cons (db : Conn) (q : Query) (qs : List Query) :
    execResults db (q :: qs) =
      (if q.status = "disable" then [] else (db q.sql).toList) ++ execResults db qs := by
  by_cases hs : q.status = "disable"
  · simp [execResults, List.filterMap_cons, hs]
  · simp only [execResults, List.filterMap_cons, hs, if_false]
    cases db q.sql <;> simp

theorem getMetricLoop_eq (db : Conn) :
    ∀ (qs : List Query) (cn : List String) (list : List (List DbValue)),
      getMetricLoop db qs cn list =
        (lastColumns cn (execResults db qs),
         list ++ ((execResults db qs).map (fun r => r.rows)).flatten) := by
  intro qs
  induction qs with
  | nil =>
    intro cn list
    simp [getMetricLoop, execResults, lastColumns]
  | cons q qs ih =>
    intro cn list
    rw [getMetricLoop, execResults_cons]
    by_cases hs : q.status = "disable"
    · simp only [hs, if_true, ite_true, List.nil_append]
      exact ih cn list
    · simp only [hs, if_false, ite_false]
      cases hdb : db q.sql with
      | none => simpa using ih cn list
      | some res =>
        simp only [Option.toList, List.cons_append, List.nil_append, List.map_cons,
          List.flatten_cons, lastColumns]
        rw [ih res.columns (list ++ res.rows), List.append_assoc]
        simp

/-- C4: `getMetric` concatenates the rows of all executed (enabled and
successful) statement variants in statement order, and processes every
concatenated row with a single column-index map built from the
column-name list of the most recently executed (last successful)
statement; earlier statements' own column orderings play no part. -/
theorem getMetric_concat_rows_last_columns (td : Transcoder) (db : Conn)
    (qi : QueryInstance) :
    getMetric td db qi =
      (let rs := execResults db qi.queries
       let cn := match rs.getLast? with
                 | some r => r.columns
                 | none => []
       (((rs.map (fun r => r.rows)).flatten).mapM
         (procRows td qi cn (buildColumnIdx cn))).map
           (fun results => (results.map (fun r => r.1)).flatten)) := by
  simp only [getMetric, getMetricLoop_eq, List.nil_append, lastColumns_eq_getLast?]
  cases h : (((execResults db qi.queries).map (fun r => r.rows)).flatten).mapM
      (procRows td qi
        (match (execResults db qi.queries).getLast? with
         | some r => r.columns
         | none => [])
        (buildColumnIdx
          (match (execResults db qi.queries).getLast? with
           | some r => r.columns
           | none => []))) <;>
    simp [h, Option.map, Option.bind_eq_bind]

theorem procColumns_queries_irrelevant (qi : QueryInstance) (X : List Query)
    (labels : List GoStr) (row : List DbValue) :
    ∀ ps : List (Nat × String),
      procColumns { qi with queries := X } labels ps row = procColumns qi labels ps row := by
  intro ps
  induction ps with
  | nil => rfl
  | cons p rest ih =>
    obtain ⟨i, n⟩ := p
    rw [procColumns_cons, procColumns_cons, ih]
    rfl

theorem procRows_queries_irrelevant (td : Transcoder) (qi : QueryInstance) (X : List Query)
    (cn : List String) (idx : String → Nat) (row : List DbValue) :
    procRows td { qi with queries := X } cn idx row = procRows td qi cn idx row := by
  have h1 : rowDbName { qi with queries := X } idx row = rowDbName qi idx row := rfl
  have h2 : ∀ dbn, rowLabels td { qi with queries := X } idx row dbn =
      rowLabels td qi idx row dbn := fun _ => rfl
  simp only [procRows, h1, h2, procColumns_queries_irrelevant]

theorem execResults_filter (db : Conn) :
    ∀ qs : List Query,
      execResults db (qs.filter (fun q => !(q.status == "disable"))) = execResults db qs := by
  intro qs
  induction qs with
  | nil => rfl
  | cons q qs ih =>
    by_cases hs : q.status = "disable"
    · simp [List.filter_cons, hs, execResults_cons, ih]
    · have hb : (q.status == "disable") = false := by
        simp [hs]
      simp [List.filter_cons, hb, execResults_cons, hs, ih]

theorem execResults_all_disabled (db : Conn) :
    ∀ qs : List Query, (∀ q ∈ qs, q.status = "disable") → execResults db qs = [] := by
  intro qs
  induction qs with
  | nil => intro _; rfl
  | cons q qs ih =>
    intro h
    rw [execResults_cons, h q (List.mem_cons_self _ _), if_pos rfl, List.nil_append]
    exact ih (fun p hp => h p (List.mem_cons_of_mem _ hp))

/-- C6: only enabled statement variants contribute: dropping the disabled
statements from a definition leaves `getMetric`'s output unchanged (a
disabled statement's rows never appear in the aggregated output), and a
definition all of whose statements are disabled contributes no samples at
all. -/
theorem getMetric_skips_disabled :
    (∀ (td : Transcoder) (db : Conn) (qi : QueryInstance),
      getMetric td db qi =
        getMetric td db
          { qi with queries := qi.queries.filter (fun q => !(q.status == "disable")) }) ∧
    (∀ (td : Transcoder) (db : Conn) (qi : QueryInstance),
      (∀ q ∈ qi.queries, q.status = "disable") → getMetric td db qi = some []) := by
  constructor
  · intro td db qi
    have hq : ({ qi with
        queries := qi.queries.filter (fun q => !(q.status == "disable")) } :
        QueryInstance).queries = qi.queries.filter (fun q => !(q.status == "disable")) := rfl
    have hpr : ∀ (cn : List String) (idx : String → Nat),
        procRows td
          { qi with queries := qi.queries.filter (fun q => !(q.status == "disable")) }
          cn idx =
        procRows td qi cn idx := fun cn idx =>
      funext (fun row => procRows_queries_irrelevant td qi _ cn idx row)
    simp only [getMetric, hq, getMetricLoop_eq, execResults_filter, hpr]
  · intro td db qi h
    simp only [getMetric, getMetricLoop_eq, execResults_all_disabled db qi.queries h,
      lastColumns, List.map_nil, List.flatten_nil, List.nil_append]
    rfl

/-- Witness for C6: a definition with one enabled and one disabled
statement produces exactly the enabled statement's sample; fully disabled
definitions produce none. -/
theorem getMetric_skips_disabled_witness :
    getMetric tdOk
      (fun s => if s = "GOOD" then
          some ⟨["datname", "numbackends"], [[.str (gs "postgres"), .int 3]]⟩
        else some ⟨["datname", "numbackends"], [[.str (gs "bad"), .int 999]]⟩)
      (mkQI "pg_database"
        [{ sql := "BAD", status := "disable" }, { sql := "GOOD", status := "enable" }]
        ["datname"] "" [mkColumn "numbackends" (gs "GAUGE") false false false ["datname"]]) =
      getMetric tdOk
        (fun s => if s = "GOOD" then
            some ⟨["datname", "numbackends"], [[.str (gs "postgres"), .int 3]]⟩
          else some ⟨["datname", "numbackends"], [[.str (gs "bad"), .int 999]]⟩)
        (mkQI "pg_database"
          [{ sql := "GOOD", status := "enable" }]
          ["datname"] "" [mkColumn "numbackends" (gs "GAUGE") false false false ["datname"]]) ∧
    getMetric tdOk
      (fun _ => some ⟨["datname", "numbackends"], [[.str (gs "postgres"), .int 3]]⟩)
      (mkQI "pg_database" [{ sql := "S", status := "disable" }]
        ["datname"] "" [mkColumn "numbackends" (gs "GAUGE") false false false ["datname"]]) =
      some [] := by
  constructor
  · have h := getMetric_skips_disabled.1 tdOk
      (fun s => if s = "GOOD" then
          some ⟨["datname", "numbackends"], [[.str (gs "postgres"), .int 3]]⟩
        else some ⟨["datname", "numbackends"], [[.str (gs "bad"), .int 999]]⟩)
      (mkQI "pg_database"
        [{ sql := "BAD", status := "disable" }, { sql := "GOOD", status := "enable" }]
        ["datname"] "" [mkColumn "numbackends" (gs "GAUGE") false false false ["datname"]])
    exact h
  · exact getMetric_skips_disabled.2 tdOk
      (fun _ => some ⟨["datname", "numbackends"], [[.str (gs "postgres"), .int 3]]⟩)
      (mkQI "pg_database" [{ sql := "S", status := "disable" }]
        ["datname"] "" [mkColumn "numbackends" (gs "GAUGE") false false false ["datname"]])
      (by decide)

end OgExporter
